import Mathlib

/-!
Verification of the carla-ns3 co-simulation bridge specification against the
repository sources. The repository ships `main.py` (the top-level control
loop) and `src/carla/carla_connector.py` (CARLA helpers); the bridge core
(StateCodec, TransportChannel, RunStateTracker, Bridge) is referenced by
`main.py` but its module is not part of the available sources, so those
components are modelled from the specification text and marked as such.
-/

namespace CarlaNs3

/-- Modelled from the spec (section 3, VehicleState): one per-vehicle kinematic
record per tick: `vehicle_id`, 3D position, 3D velocity, heading, timestamp.
The numeric fields are carried as fixed-width 64-bit words (their byte
patterns), which is all the wire codec observes. The source module defining
this record is missing from the repository sources. -/
structure VehicleState where
  vehicle_id : Nat
  pos_x : Nat
  pos_y : Nat
  pos_z : Nat
  vel_x : Nat
  vel_y : Nat
  vel_z : Nat
  heading : Nat
  timestamp : Nat
  deriving Repr, DecidableEq

/-- Modelled from the spec (section 3, Snapshot): an ordered batch of
VehicleState records captured at one tick boundary, with the tick timestamp. -/
structure Snapshot where
  timestamp : Nat
  records : List VehicleState
  deriving Repr, DecidableEq

/-! ## StateCodec (spec section 4.2)

Modelled from the spec: the StateCodec module is missing from the repository
sources. A Snapshot is encoded as a fixed header (protocol version byte,
record count, snapshot timestamp) followed by fixed-width per-vehicle records
(id + 3 position + 3 velocity + heading + timestamp), in a defined byte order
(little-endian here). Decoding is the exact inverse and rejects unknown
protocol versions with `protocolVersionError`. -/

def PROTOCOL_VERSION : Nat := 1

inductive CodecError where
  | protocolVersionError
  | truncated
  | trailing
  deriving Repr, DecidableEq

/-- Serialize `n` as exactly `w` little-endian bytes. -/
def toLE : Nat → Nat → List Nat
  | 0, _ => []
  | w + 1, n => n % 256 :: toLE w (n / 256)

/-- Read exactly `w` little-endian bytes, returning the value and the rest. -/
def readLE : Nat → List Nat → Except CodecError (Nat × List Nat)
  | 0, bs => .ok (0, bs)
  | _ + 1, [] => .error .truncated
  | w + 1, b :: bs =>
    match readLE w bs with
    | .ok (n, r) => .ok (b + 256 * n, r)
    | .error e => .error e

/-- One fixed-width wire record: nine 8-byte fields. -/
def encodeRecord (r : VehicleState) : List Nat :=
  toLE 8 r.vehicle_id ++ toLE 8 r.pos_x ++ toLE 8 r.pos_y ++ toLE 8 r.pos_z ++
    toLE 8 r.vel_x ++ toLE 8 r.vel_y ++ toLE 8 r.vel_z ++ toLE 8 r.heading ++
    toLE 8 r.timestamp

def readRecord (bs : List Nat) : Except CodecError (VehicleState × List Nat) :=
  match readLE 8 bs with
  | .error e => .error e
  | .ok (vid, bs) =>
    match readLE 8 bs with
    | .error e => .error e
    | .ok (px, bs) =>
      match readLE 8 bs with
      | .error e => .error e
      | .ok (py, bs) =>
        match readLE 8 bs with
        | .error e => .error e
        | .ok (pz, bs) =>
          match readLE 8 bs with
          | .error e => .error e
          | .ok (vx, bs) =>
            match readLE 8 bs with
            | .error e => .error e
            | .ok (vy, bs) =>
              match readLE 8 bs with
              | .error e => .error e
              | .ok (vz, bs) =>
                match readLE 8 bs with
                | .error e => .error e
                | .ok (hd, bs) =>
                  match readLE 8 bs with
                  | .error e => .error e
                  | .ok (ts, bs) => .ok (⟨vid, px, py, pz, vx, vy, vz, hd, ts⟩, bs)

def readRecords : Nat → List Nat → Except CodecError (List VehicleState × List Nat)
  | 0, bs => .ok ([], bs)
  | c + 1, bs =>
    match readRecord bs with
    | .error e => .error e
    | .ok (r, bs) =>
      match readRecords c bs with
      | .error e => .error e
      | .ok (rs, bs) => .ok (r :: rs, bs)

/-- Modelled from the spec: StateCodec.encode. Header is the protocol version
byte, a 4-byte record count, an 8-byte snapshot timestamp; then the
fixed-width records in input order (deterministic, order-preserving). -/
def encode (s : Snapshot) : List Nat :=
  PROTOCOL_VERSION :: (toLE 4 s.records.length ++ toLE 8 s.timestamp ++
    (s.records.map encodeRecord).flatten)

/-- Modelled from the spec: StateCodec.decode, the exact inverse of `encode`;
an unknown protocol version fails with `protocolVersionError`. -/
def decode (bs : List Nat) : Except CodecError Snapshot :=
  match bs with
  | [] => .error .truncated
  | v :: rest =>
    if v = PROTOCOL_VERSION then
      match readLE 4 rest with
      | .error e => .error e
      | .ok (cnt, rest) =>
        match readLE 8 rest with
        | .error e => .error e
        | .ok (ts, rest) =>
          match readRecords cnt rest with
          | .error e => .error e
          | .ok (rs, rest) =>
            if rest = [] then .ok ⟨ts, rs⟩ else .error .trailing
    else .error .protocolVersionError

/-- A field fits in one fixed-width (8-byte) slot. -/
def validField (n : Nat) : Bool := n < 2 ^ 64

def validRecord (r : VehicleState) : Bool :=
  validField r.vehicle_id && validField r.pos_x && validField r.pos_y &&
    validField r.pos_z && validField r.vel_x && validField r.vel_y &&
    validField r.vel_z && validField r.heading && validField r.timestamp

/-- A valid Snapshot: the header count fits in 4 bytes, the snapshot timestamp
in 8 bytes, and every record field in its fixed-width slot. -/
def validSnapshot (s : Snapshot) : Bool :=
  decide (s.records.length < 2 ^ 32) && validField s.timestamp &&
    s.records.all validRecord

theorem readLE_toLE (w : Nat) (rest : List Nat) : ∀ n : Nat, n < 2 ^ (8 * w) →
    readLE w (toLE w n ++ rest) = .ok (n, rest) := by
  induction w with
  | zero =>
    intro n hn
    simp only [Nat.mul_zero, Nat.pow_zero, Nat.lt_one_iff] at hn
    simp [toLE, readLE, hn]
  | succ w ih =>
    intro n hn
    have hdiv : n / 256 < 2 ^ (8 * w) := by
      have h2 : n < 2 ^ (8 * w) * 256 := by
        have : 2 ^ (8 * (w + 1)) = 2 ^ (8 * w) * 256 := by
          rw [Nat.mul_succ, Nat.pow_add]
        omega
      omega
    simp only [toLE, List.cons_append, readLE, List.append_eq]
    rw [ih (n / 256) hdiv]
    have : n % 256 + 256 * (n / 256) = n := by omega
    simp [this]

theorem readRecord_encodeRecord (r : VehicleState) (rest : List Nat)
    (h : validRecord r = true) :
    readRecord (encodeRecord r ++ rest) = .ok (r, rest) := by
  simp only [validRecord, validField, Bool.and_eq_true, decide_eq_true_eq] at h
  obtain ⟨⟨⟨⟨⟨⟨⟨⟨h1, h2⟩, h3⟩, h4⟩, h5⟩, h6⟩, h7⟩, h8⟩, h9⟩ := h
  have w64 : (8 : Nat) * 8 = 64 := by norm_num
  simp only [encodeRecord, List.append_assoc, readRecord,
    readLE_toLE 8 _ _ (w64 ▸ h1), readLE_toLE 8 _ _ (w64 ▸ h2),
    readLE_toLE 8 _ _ (w64 ▸ h3), readLE_toLE 8 _ _ (w64 ▸ h4),
    readLE_toLE 8 _ _ (w64 ▸ h5), readLE_toLE 8 _ _ (w64 ▸ h6),
    readLE_toLE 8 _ _ (w64 ▸ h7), readLE_toLE 8 _ _ (w64 ▸ h8),
    readLE_toLE 8 _ _ (w64 ▸ h9)]

theorem readRecords_encode (rs : List VehicleState) :
    ∀ rest : List Nat, rs.all validRecord = true →
    readRecords rs.length ((rs.map encodeRecord).flatten ++ rest) = .ok (rs, rest) := by
  induction rs with
  | nil => intro rest _; simp [readRecords]
  | cons r rs ih =>
    intro rest h
    simp only [List.all_cons, Bool.and_eq_true] at h
    simp only [List.length_cons, List.map_cons, List.flatten_cons, readRecords,
      List.append_assoc]
    rw [readRecord_encodeRecord r _ h.1]
    simp [ih _ h.2]

/-- C1: for every valid Snapshot, decoding the encoding yields the snapshot
back: the wire codec round-trips exactly over the fixed-header plus
fixed-width-records format. -/
theorem decode_encode_roundtrip (s : Snapshot) (h : validSnapshot s = true) :
    decode (encode s) = .ok s := by
  simp only [validSnapshot, Bool.and_eq_true, decide_eq_true_eq] at h
  obtain ⟨⟨hc, hts⟩, hrec⟩ := h
  have hc32 : s.records.length < 2 ^ (8 * 4) := by norm_num; omega
  have hts64 : s.timestamp < 2 ^ (8 * 8) := by
    simp only [validField, decide_eq_true_eq] at hts; norm_num; omega
  have hr := readRecords_encode s.records [] hrec
  rw [List.append_nil] at hr
  simp only [encode, decode, if_pos rfl, List.append_assoc,
    readLE_toLE 4 _ _ hc32, readLE_toLE 8 _ _ hts64]
  rw [hr]
  simp

/-- C1 witness: a concrete two-record snapshot round-trips. -/
theorem decode_encode_roundtrip_witness :
    decode (encode ⟨5, [⟨1, 2, 3, 4, 5, 6, 7, 8, 9⟩, ⟨2, 0, 0, 0, 0, 0, 0, 0, 10⟩]⟩) =
      .ok ⟨5, [⟨1, 2, 3, 4, 5, 6, 7, 8, 9⟩, ⟨2, 0, 0, 0, 0, 0, 0, 0, 10⟩]⟩ :=
  decode_encode_roundtrip _ (by decide)

/-! ## Bridge state machine (spec sections 3, 4.1, 4.3, 4.4)

Modelled from the spec: the Bridge / RunStateTracker / TransportChannel
modules (`src/bridge/carla_ns3_bridge.py` imported by `main.py`) are missing
from the repository sources. RunState is the tri-state flag
{NotStarted, Running, Stopped}; `start` transitions NotStarted to Running and
fails with InvalidStateError otherwise; `stop` is idempotent on Stopped;
`send_vehicle_states` is valid only while Running, drops stale per-vehicle
samples, and on transport failure performs exactly one reconnect attempt
before surfacing BridgeSendError while keeping RunState = Running. -/

inductive RunState where
  | NotStarted
  | Running
  | Stopped
  deriving Repr, DecidableEq

inductive BridgeError where
  | invalidStateError
  | bridgeStartError
  | bridgeSendError
  | cleanupError
  deriving Repr, DecidableEq

/-- A transport-level operation issued by the channel, with its outcome. -/
inductive TransportOp where
  | opSend (ok : Bool)
  | opConnect (ok : Bool)
  | opClose (ok : Bool)
  deriving Repr, DecidableEq

/-- Bridge-observable state: the RunState flag plus, per vehicle id, the
timestamp of the last transmitted record (0 when none was ever sent). -/
structure BridgeState where
  runState : RunState
  lastSent : Nat → Nat

/-- Transport outcomes for one `send_vehicle_states` call: whether the first
send succeeds, whether the single reconnect attempt succeeds, and whether the
send after a successful reconnect succeeds. -/
structure SendEnv where
  firstSend : Bool
  reconnect : Bool
  secondSend : Bool
  deriving Repr, DecidableEq

/-- Modelled from the spec (section 4.3): TransportChannel send with the
bounded retry policy — a transient send failure triggers exactly one
reconnect attempt (fresh connect) before surfacing the error; repeated
failure is reported, never swallowed. Returns success and the transport
operations issued. -/
def sendWithRetry (env : SendEnv) : Bool × List TransportOp :=
  if env.firstSend then (true, [.opSend true])
  else if env.reconnect then
    if env.secondSend then (true, [.opSend false, .opConnect true, .opSend true])
    else (false, [.opSend false, .opConnect true, .opSend false])
  else (false, [.opSend false, .opConnect false])

/-- Modelled from the spec (section 3 invariant): records whose timestamp is
lower than the vehicle's last transmitted timestamp are dropped before
transmission; returns the kept records and the updated last-sent map. -/
def filterFresh (m : Nat → Nat) : List VehicleState → List VehicleState × (Nat → Nat)
  | [] => ([], m)
  | r :: rs =>
    if r.timestamp < m r.vehicle_id then filterFresh m rs
    else
      let p := filterFresh (fun v => if v = r.vehicle_id then r.timestamp else m v) rs
      (r :: p.1, p.2)

/-- Modelled from the spec (section 4.4): pure read of RunState == Running. -/
def is_simulation_running (st : BridgeState) : Bool :=
  match st.runState with
  | .Running => true
  | _ => false

/-- Modelled from the spec (sections 4.1, 4.4): `start` transitions
NotStarted to Running when the channel connects; on connect failure it stays
NotStarted with BridgeStartError; in any other state it fails with
InvalidStateError. -/
def start (st : BridgeState) (connectOk : Bool) :
    Except BridgeError Unit × BridgeState :=
  match st.runState with
  | .NotStarted =>
    if connectOk then (.ok (), { st with runState := .Running })
    else (.error .bridgeStartError, st)
  | _ => (.error .invalidStateError, st)

/-- Modelled from the spec (sections 4.1, 4.4): `stop` transitions any
non-Stopped state to Stopped, always attempting to close the channel; close
errors are reported (returned), never raised; on Stopped it is a no-op. -/
def stop (st : BridgeState) (closeOk : Bool) :
    BridgeState × List TransportOp × Option BridgeError :=
  match st.runState with
  | .Stopped => (st, [], none)
  | _ => ({ st with runState := .Stopped }, [.opClose closeOk],
      if closeOk then none else some .cleanupError)

/-- Everything one `send_vehicle_states` call produces: the caller-visible
result, the successor bridge state, the transport operations issued, and the
records actually transmitted to the receiver. -/
structure SendOutcome where
  result : Except BridgeError Unit
  state : BridgeState
  ops : List TransportOp
  transmitted : List VehicleState

/-- Modelled from the spec (section 4.4): `send_vehicle_states` is valid only
while Running (otherwise InvalidStateError with no transport I/O); while
Running it drops stale records, sends via `sendWithRetry`, and on failure
surfaces BridgeSendError while keeping RunState = Running and leaving the
last-sent map unchanged (nothing was transmitted). -/
def send_vehicle_states (st : BridgeState) (records : List VehicleState)
    (env : SendEnv) : SendOutcome :=
  match st.runState with
  | .Running =>
    if (sendWithRetry env).1 then
      ⟨.ok (), { st with lastSent := (filterFresh st.lastSent records).2 },
        (sendWithRetry env).2, (filterFresh st.lastSent records).1⟩
    else ⟨.error .bridgeSendError, st, (sendWithRetry env).2, []⟩
  | _ => ⟨.error .invalidStateError, st, [], []⟩

/-- One caller-issued bridge operation. -/
inductive BridgeOp where
  | doStart (connectOk : Bool)
  | doStop (closeOk : Bool)
  | doSend (records : List VehicleState) (env : SendEnv)

/-- State transition of one bridge operation. -/
def stepBridge (st : BridgeState) : BridgeOp → BridgeState
  | .doStart c => (start st c).2
  | .doStop c => (stop st c).1
  | .doSend rs env => (send_vehicle_states st rs env).state

def countConnect (ops : List TransportOp) : Nat :=
  ops.countP fun o => match o with | .opConnect _ => true | _ => false

def countSendAttempts (ops : List TransportOp) : Nat :=
  ops.countP fun o => match o with | .opSend _ => true | _ => false

/-- C3: calling `send_vehicle_states` before `start` (RunState still
NotStarted) fails with InvalidStateError, leaves the state unchanged, issues
no transport operation (no connect, send, or close), and transmits nothing. -/
theorem send_before_start_invalid (m : Nat → Nat) (records : List VehicleState)
    (env : SendEnv) :
    send_vehicle_states ⟨.NotStarted, m⟩ records env =
      ⟨.error .invalidStateError, ⟨.NotStarted, m⟩, [], []⟩ := rfl

/-- C4: while Running, if the send fails and the single reconnect attempt
also fails, `send_vehicle_states` surfaces BridgeSendError, the state is
unchanged (RunState still Running), and `is_simulation_running` still
returns true. -/
theorem send_failure_keeps_running (m : Nat → Nat) (records : List VehicleState)
    (s2 : Bool) :
    (send_vehicle_states ⟨.Running, m⟩ records ⟨false, false, s2⟩).result =
        .error .bridgeSendError ∧
      (send_vehicle_states ⟨.Running, m⟩ records ⟨false, false, s2⟩).state =
        ⟨.Running, m⟩ ∧
      is_simulation_running
        (send_vehicle_states ⟨.Running, m⟩ records ⟨false, false, s2⟩).state =
        true :=
  ⟨rfl, rfl, rfl⟩

/-- C5: `stop` is idempotent on Stopped: on an already-Stopped state it is a
no-op returning no error and no transport operation, and for every bridge
state a second `stop` after a first one is observably a no-op, so stop
followed by stop equals a single stop. -/
theorem stop_idempotent :
    (∀ (m : Nat → Nat) (c : Bool),
      stop ⟨.Stopped, m⟩ c = (⟨.Stopped, m⟩, [], none)) ∧
    ∀ (st : BridgeState) (c1 c2 : Bool),
      stop (stop st c1).1 c2 = ((stop st c1).1, [], none) := by
  refine ⟨fun m c => rfl, fun st c1 c2 => ?_⟩
  rcases st with ⟨rs, m⟩
  cases rs <;> rfl

/-- C6: `start` succeeds from NotStarted, transitioning to Running; from
Running or Stopped it fails with InvalidStateError leaving the state
unchanged; and Stopped is terminal: no bridge operation moves a Stopped
bridge out of Stopped. -/
theorem start_transitions :
    (∀ m : Nat → Nat, start ⟨.NotStarted, m⟩ true = (.ok (), ⟨.Running, m⟩)) ∧
    (∀ (m : Nat → Nat) (c : Bool),
      start ⟨.Running, m⟩ c = (.error .invalidStateError, ⟨.Running, m⟩)) ∧
    (∀ (m : Nat → Nat) (c : Bool),
      start ⟨.Stopped, m⟩ c = (.error .invalidStateError, ⟨.Stopped, m⟩)) ∧
    ∀ (m : Nat → Nat) (op : BridgeOp),
      (stepBridge ⟨.Stopped, m⟩ op).runState = .Stopped := by
  refine ⟨fun m => rfl, fun m c => rfl, fun m c => rfl, fun m op => ?_⟩
  cases op <;> rfl

/-- C7: the channel performs at most one reconnect per send; a failed first
send triggers exactly one reconnect attempt; if the reconnect also fails, the
error is surfaced (result false), only one send was attempted, and no second
retry happens; and a failure after a successful reconnect is also surfaced,
never swallowed. -/
theorem retry_policy :
    (∀ env : SendEnv, countConnect (sendWithRetry env).2 ≤ 1) ∧
    (∀ r s2 : Bool, countConnect (sendWithRetry ⟨false, r, s2⟩).2 = 1) ∧
    (∀ s2 : Bool, (sendWithRetry ⟨false, false, s2⟩).1 = false ∧
      countSendAttempts (sendWithRetry ⟨false, false, s2⟩).2 = 1 ∧
      countConnect (sendWithRetry ⟨false, false, s2⟩).2 = 1) ∧
    (sendWithRetry ⟨false, true, false⟩).1 = false := by
  refine ⟨fun env => ?_, fun r s2 => ?_, fun s2 => ?_, by decide⟩
  · rcases env with ⟨f, r, s⟩
    cases f <;> cases r <;> cases s <;> decide
  · cases r <;> cases s2 <;> decide
  · cases s2 <;> decide

/-! ## C2: per-vehicle timestamp monotonicity across a run -/

/-- Records `a` before `b` respect staleness dropping: if they concern the
same vehicle, the earlier record's timestamp is not larger. -/
def staleOrder (a b : VehicleState) : Prop :=
  a.vehicle_id = b.vehicle_id → a.timestamp ≤ b.timestamp

/-- The timestamps of vehicle `v`'s records in a transmitted stream, in
transmission order. -/
def vehicleTimestamps (v : Nat) (l : List VehicleState) : List Nat :=
  (l.filter fun r => r.vehicle_id == v).map fun r => r.timestamp

/-- A fresh bridge, before `start`: nothing transmitted yet. -/
def initBridge : BridgeState := ⟨.NotStarted, fun _ => 0⟩

/-- One control-loop tick: feed one snapshot (with its transport outcomes)
to the bridge and append what was actually transmitted. -/
def runStep (acc : BridgeState × List VehicleState)
    (snap : List VehicleState × SendEnv) : BridgeState × List VehicleState :=
  let o := send_vehicle_states acc.1 snap.1 snap.2
  (o.state, acc.2 ++ o.transmitted)

/-- A whole run: start the bridge, then send each snapshot in turn; returns
the final state and the concatenation of everything transmitted, in order. -/
def runBridge (snaps : List (List VehicleState × SendEnv)) :
    BridgeState × List VehicleState :=
  snaps.foldl runStep ((start initBridge true).2, [])

theorem filterFresh_mem_ge (rs : List VehicleState) :
    ∀ m m2 : Nat → Nat, (∀ v, m v ≤ m2 v) →
      ∀ r ∈ (filterFresh m2 rs).1, m r.vehicle_id ≤ r.timestamp := by
  induction rs with
  | nil => intro m m2 _ r hr; simp [filterFresh] at hr
  | cons a rs ih =>
    intro m m2 hle r hr
    by_cases h : a.timestamp < m2 a.vehicle_id
    · rw [filterFresh, if_pos h] at hr
      exact ih m m2 hle r hr
    · rw [filterFresh, if_neg h] at hr
      rcases List.mem_cons.mp hr with rfl | hr
      · exact le_trans (hle _) (Nat.le_of_not_lt h)
      · refine ih m (fun v => if v = a.vehicle_id then a.timestamp else m2 v) ?_ r hr
        intro v
        by_cases hv : v = a.vehicle_id
        · subst hv; simp only [if_pos rfl]
          exact le_trans (hle _) (Nat.le_of_not_lt h)
        · simp only [if_neg hv]; exact hle v

theorem filterFresh_lastSent_mono (rs : List VehicleState) :
    ∀ (m : Nat → Nat) (v : Nat), m v ≤ (filterFresh m rs).2 v := by
  induction rs with
  | nil => intro m v; simp [filterFresh]
  | cons a rs ih =>
    intro m v
    by_cases h : a.timestamp < m a.vehicle_id
    · rw [filterFresh, if_pos h]; exact ih m v
    · rw [filterFresh, if_neg h]
      refine le_trans ?_ (ih _ v)
      by_cases hv : v = a.vehicle_id
      · subst hv; simp only [if_pos rfl]; exact Nat.le_of_not_lt h
      · simp only [if_neg hv]; exact le_refl _

theorem filterFresh_mem_le_final (rs : List VehicleState) :
    ∀ m : Nat → Nat, ∀ r ∈ (filterFresh m rs).1,
      r.timestamp ≤ (filterFresh m rs).2 r.vehicle_id := by
  induction rs with
  | nil => intro m r hr; simp [filterFresh] at hr
  | cons a rs ih =>
    intro m r hr
    by_cases h : a.timestamp < m a.vehicle_id
    · rw [filterFresh, if_pos h] at hr ⊢
      exact ih m r hr
    · rw [filterFresh, if_neg h] at hr ⊢
      rcases List.mem_cons.mp hr with rfl | hr
      · have hm := filterFresh_lastSent_mono rs
          (fun v => if v = r.vehicle_id then r.timestamp else m v) r.vehicle_id
        simpa using hm
      · exact ih _ r hr

theorem filterFresh_pairwise (rs : List VehicleState) :
    ∀ m : Nat → Nat, (filterFresh m rs).1.Pairwise staleOrder := by
  induction rs with
  | nil => intro m; simp [filterFresh]
  | cons a rs ih =>
    intro m
    by_cases h : a.timestamp < m a.vehicle_id
    · rw [filterFresh, if_pos h]; exact ih m
    · rw [filterFresh, if_neg h]
      refine List.Pairwise.cons ?_ (ih _)
      intro b hb hid
      have hge := filterFresh_mem_ge rs
        (fun v => if v = a.vehicle_id then a.timestamp else m v)
        (fun v => if v = a.vehicle_id then a.timestamp else m v)
        (fun _ => le_refl _) b hb
      rw [← hid] at hge
      simpa using hge

theorem runBridge_aux (snaps : List (List VehicleState × SendEnv)) :
    ∀ (st : BridgeState) (acc : List VehicleState),
      acc.Pairwise staleOrder →
      (∀ r ∈ acc, r.timestamp ≤ st.lastSent r.vehicle_id) →
      (snaps.foldl runStep (st, acc)).2.Pairwise staleOrder := by
  induction snaps with
  | nil => intro st acc hpw _; simpa using hpw
  | cons s snaps ih =>
    intro st acc hpw hinv
    rcases s with ⟨records, env⟩
    rcases st with ⟨rs, m⟩
    rw [List.foldl_cons]
    cases rs with
    | Running =>
      by_cases hq : (sendWithRetry env).1
      · have hstep : runStep (⟨.Running, m⟩, acc) (records, env) =
            (⟨.Running, (filterFresh m records).2⟩,
              acc ++ (filterFresh m records).1) := by
          simp [runStep, send_vehicle_states, hq]
        rw [hstep]
        refine ih _ _ ?_ ?_
        · rw [List.pairwise_append]
          refine ⟨hpw, filterFresh_pairwise records m, ?_⟩
          intro a ha b hb hid
          calc a.timestamp ≤ m a.vehicle_id := hinv a ha
            _ = m b.vehicle_id := by rw [hid]
            _ ≤ b.timestamp :=
              filterFresh_mem_ge records m m (fun _ => le_refl _) b hb
        · intro r hr
          rcases List.mem_append.mp hr with hr | hr
          · exact le_trans (hinv r hr) (filterFresh_lastSent_mono records m _)
          · exact filterFresh_mem_le_final records m r hr
      · have hstep : runStep (⟨.Running, m⟩, acc) (records, env) =
            (⟨.Running, m⟩, acc) := by
          simp [runStep, send_vehicle_states, hq]
        rw [hstep]
        exact ih _ _ hpw hinv
    | NotStarted =>
      have hstep : runStep (⟨.NotStarted, m⟩, acc) (records, env) =
          (⟨.NotStarted, m⟩, acc) := by
        simp [runStep, send_vehicle_states]
      rw [hstep]
      exact ih _ _ hpw hinv
    | Stopped =>
      have hstep : runStep (⟨.Stopped, m⟩, acc) (records, env) =
          (⟨.Stopped, m⟩, acc) := by
        simp [runStep, send_vehicle_states]
      rw [hstep]
      exact ih _ _ hpw hinv

/-- C2: across every sequence of snapshots fed to the bridge, the timestamps
the receiver observes for any given vehicle id are monotonically
non-decreasing: stale or reordered samples are dropped before transmission
and never sent. -/
theorem receiver_timestamps_monotone (v : Nat)
    (snaps : List (List VehicleState × SendEnv)) :
    List.Pairwise (· ≤ ·) (vehicleTimestamps v (runBridge snaps).2) := by
  have h : (runBridge snaps).2.Pairwise staleOrder :=
    runBridge_aux snaps (start initBridge true).2 [] (by simp) (by simp)
  have hf : ((runBridge snaps).2.filter fun r => r.vehicle_id == v).Pairwise
      staleOrder := h.filter _
  rw [vehicleTimestamps, List.pairwise_map]
  refine hf.imp_of_mem ?_
  intro a b ha hb hab
  have hav : a.vehicle_id = v := by
    simpa using (List.mem_filter.mp ha).2
  have hbv : b.vehicle_id = v := by
    simpa using (List.mem_filter.mp hb).2
  exact hab (hav.trans hbv.symm)

/-! ## C8: the control loop of src/main.py (lines 46-67)

`main` runs `try: while bridge.is_simulation_running(): collect; send; sleep`
with `except KeyboardInterrupt` caught and logged, a `finally` block that
calls `bridge.stop()` and the remaining cleanup inside its own
`try/except Exception` that logs cleanup errors, and a final
"Simulation ended" log that is reached unless a non-interrupt error
propagates. One tick is abstracted to its outcome: it completes, raises
KeyboardInterrupt, or raises some other error; the loop also ends when the
finite tick script runs out (the loop condition turning false). -/

inductive TickOutcome where
  | tickOk
  | tickInterrupt
  | tickError
  deriving Repr, DecidableEq

inductive LoopExit where
  | exitNormal
  | exitInterrupt
  | exitError
  deriving Repr, DecidableEq

inductive MainEv where
  | evSend
  | evStop
  | evDestroy
  | evCleanupError
  | evEnd
  deriving Repr, DecidableEq

/-- The `while bridge.is_simulation_running()` loop body of `main`, one event
per `send_vehicle_states` call, ending with how the loop was left. -/
def runLoop (st : BridgeState) : List TickOutcome → List MainEv × LoopExit
  | [] => ([], .exitNormal)
  | t :: ts =>
    if is_simulation_running st then
      match t with
      | .tickOk =>
        let p := runLoop st ts
        (.evSend :: p.1, p.2)
      | .tickInterrupt => ([.evSend], .exitInterrupt)
      | .tickError => ([.evSend], .exitError)
    else ([], .exitNormal)

/-- The `finally` block of `main`: `bridge.stop()` (the modelled stop never
raises; a close failure is a reported value) followed by
`destroy_actors` / `destroy_sensors` / plot generation, all inside
`try/except Exception` so a cleanup failure is logged, never propagated. -/
def cleanupEvents (st : BridgeState) (closeOk destroyOk vizOk : Bool) :
    BridgeState × List MainEv :=
  ((stop st closeOk).1,
    .evStop ::
      (if destroyOk then
        if vizOk then [.evDestroy] else [.evDestroy, .evCleanupError]
      else [.evCleanupError]))

/-- Everything `main` does after `bridge.start()`: the tick loop, then the
`finally` cleanup on whichever exit path was taken; the closing
"Simulation ended" log happens unless a tick error is propagating. -/
def mainAfterStart (st : BridgeState) (ticks : List TickOutcome)
    (closeOk destroyOk vizOk : Bool) : List MainEv × LoopExit :=
  let p := runLoop st ticks
  let q := cleanupEvents st closeOk destroyOk vizOk
  (p.1 ++ q.2 ++ (match p.2 with | .exitError => [] | _ => [.evEnd]), p.2)

theorem runLoop_no_stop (ticks : List TickOutcome) :
    ∀ st : BridgeState, ((runLoop st ticks).1.count .evStop) = 0 := by
  induction ticks with
  | nil => intro st; simp [runLoop]
  | cons t ts ih =>
    intro st
    simp only [runLoop]
    by_cases h : is_simulation_running st
    · rw [if_pos h]
      cases t
      · simp [List.count_cons, ih st]
      · simp
      · simp
    · rw [if_neg h]; simp

/-- C8: on every exit path of the control loop after the bridge is started —
normal loop exit, interrupt, or an error raised during a tick — `stop` is
invoked exactly once; and `stop` never propagates a fatal error: the cleanup
completes with the bridge Stopped whether or not the channel close succeeds,
close failures being reported as values. -/
theorem stop_invoked_on_every_exit (st : BridgeState) (ticks : List TickOutcome)
    (closeOk destroyOk vizOk : Bool) :
    (mainAfterStart st ticks closeOk destroyOk vizOk).1.count .evStop = 1 ∧
      (cleanupEvents st closeOk destroyOk vizOk).1.runState = .Stopped := by
  constructor
  · simp only [mainAfterStart, List.count_append, runLoop_no_stop ticks st,
      cleanupEvents]
    cases (runLoop st ticks).2 <;> cases destroyOk <;> cases vizOk <;>
      simp [List.count_cons]
  · rcases st with ⟨rs, m⟩
    cases rs <;> simp [cleanupEvents, stop]

/-! ## connect_to_carla (src/src/carla/carla_connector.py, lines 13-43)

The external CARLA API calls the function makes are modelled as an
environment of fallible operations; the function's own control flow (the
single `try/except` returning `(None, None)`) is translated directly. -/

/-- The CARLA API calls issued by `connect_to_carla`, each either returning
a value or raising. -/
structure CarlaEnv (Client World Settings CErr : Type) where
  mkClient : Except CErr Client
  setClientTimeout : Client → Except CErr Unit
  getWorld : Client → Except CErr World
  getSettings : World → Except CErr Settings
  applySettings : World → Settings → Except CErr Unit

/-- The body of the `try` block of `connect_to_carla`: create the client, set
its timeout, get the world, optionally switch to synchronous mode, and return
the pair. -/
def connectAttempt {Client World Settings CErr : Type}
    (env : CarlaEnv Client World Settings CErr) (synchronous : Bool) :
    Except CErr (Client × World) := do
  let client ← env.mkClient
  let _ ← env.setClientTimeout client
  let world ← env.getWorld client
  if synchronous then
    let settings ← env.getSettings world
    let _ ← env.applySettings world settings
  return (client, world)

/-- `connect_to_carla`: the `try` body on success returns `(client, world)`;
any raised exception is caught and `(None, None)` is returned. -/
def connect_to_carla {Client World Settings CErr : Type}
    (env : CarlaEnv Client World Settings CErr) (synchronous : Bool) :
    Option Client × Option World :=
  match connectAttempt env synchronous with
  | .ok p => (some p.1, some p.2)
  | .error _ => (none, none)

/-- C9: `connect_to_carla` never raises and never returns a mixed pair: the
result is either both components present or exactly `(none, none)`; when the
`try` body succeeds it returns the produced client and world, and when any
step raises it returns `(none, none)`. -/
theorem connect_to_carla_total {Client World Settings CErr : Type}
    (env : CarlaEnv Client World Settings CErr) (synchronous : Bool) :
    ((∃ c w, connect_to_carla env synchronous = (some c, some w)) ∨
      connect_to_carla env synchronous = (none, none)) ∧
    (∀ p, connectAttempt env synchronous = .ok p →
      connect_to_carla env synchronous = (some p.1, some p.2)) ∧
    ∀ e, connectAttempt env synchronous = .error e →
      connect_to_carla env synchronous = (none, none) := by
  refine ⟨?_, fun p hp => by simp [connect_to_carla, hp], fun e he => by
    simp [connect_to_carla, he]⟩
  cases h : connectAttempt env synchronous with
  | ok p => exact .inl ⟨p.1, p.2, by simp [connect_to_carla, h]⟩
  | error e => exact .inr (by simp [connect_to_carla, h])

/-- A CARLA environment in which every call succeeds. -/
def envConnectOk : CarlaEnv Nat Nat Nat Unit :=
  ⟨.ok 7, fun _ => .ok (), fun c => .ok (c + 1), fun _ => .ok 0,
    fun _ _ => .ok ()⟩

/-- A CARLA environment in which `get_world` raises. -/
def envConnectErr : CarlaEnv Nat Nat Nat Unit :=
  ⟨.ok 7, fun _ => .ok (), fun _ => .error (), fun _ => .ok 0,
    fun _ _ => .ok ()⟩

/-- C9 witness: on a concrete all-success environment the pair is returned,
and on a concrete environment whose `get_world` raises the result is
`(none, none)`. -/
theorem connect_to_carla_total_witness :
    connect_to_carla envConnectOk false = (some 7, some 8) ∧
      connect_to_carla envConnectErr false = (none, none) :=
  ⟨(connect_to_carla_total envConnectOk false).2.1 (7, 8) rfl,
    (connect_to_carla_total envConnectErr false).2.2 () rfl⟩

/-! ## spawn_vehicles (src/src/carla/carla_connector.py, lines 71-106) -/

/-- The external calls issued by `spawn_vehicles`: the blueprint/spawn-point
setup before the loop (which may raise, e.g. an empty `filter` result being
indexed), and, per loop iteration, the combined
`random.choice` + `try_spawn_actor` step, which may raise or return no
vehicle. -/
structure SpawnEnv (Blueprint SpawnPoint Vehicle CErr : Type) where
  setupBlueprintsAndPoints : Except CErr (List Blueprint × List SpawnPoint)
  trySpawn : Nat → Except CErr (Option Vehicle)

/-- The `for i in range(num_vehicles)` loop of `spawn_vehicles`: each
iteration appends the vehicle when `try_spawn_actor` returns one; an
exception in the iteration is caught and the loop continues. -/
def spawnIter {Vehicle CErr : Type}
    (trySpawn : Nat → Except CErr (Option Vehicle)) : Nat → List Vehicle
  | 0 => []
  | n + 1 =>
    spawnIter trySpawn n ++
      (match trySpawn n with
        | .ok (some v) => [v]
        | _ => [])

/-- `spawn_vehicles`: when the setup raises, the outer `except` returns the
empty list; otherwise the spawn loop runs `num_vehicles` iterations. -/
def spawn_vehicles {Blueprint SpawnPoint Vehicle CErr : Type}
    (env : SpawnEnv Blueprint SpawnPoint Vehicle CErr)
    (num_vehicles : Nat) : List Vehicle :=
  match env.setupBlueprintsAndPoints with
  | .error _ => []
  | .ok _ => spawnIter env.trySpawn num_vehicles

theorem spawnIter_length {Vehicle CErr : Type}
    (trySpawn : Nat → Except CErr (Option Vehicle)) (n : Nat) :
    (spawnIter trySpawn n).length ≤ n := by
  induction n with
  | zero => simp [spawnIter]
  | succ n ih =>
    rw [spawnIter]
    rcases h : trySpawn n with e | o
    · simpa using Nat.le_succ_of_le ih
    · cases o <;> · simp; omega

theorem spawnIter_mem {Vehicle CErr : Type}
    (trySpawn : Nat → Except CErr (Option Vehicle)) (n : Nat) :
    ∀ v ∈ spawnIter trySpawn n, ∃ i, i < n ∧ trySpawn i = .ok (some v) := by
  induction n with
  | zero => intro v hv; simp [spawnIter] at hv
  | succ n ih =>
    intro v hv
    rw [spawnIter] at hv
    rcases List.mem_append.mp hv with hv | hv
    · obtain ⟨i, hi, hs⟩ := ih v hv
      exact ⟨i, Nat.lt_succ_of_lt hi, hs⟩
    · rcases h : trySpawn n with e | o
      · rw [h] at hv; simp at hv
      · rw [h] at hv
        cases o with
        | none => simp at hv
        | some w =>
          simp only [List.mem_singleton] at hv
          exact ⟨n, Nat.lt_succ_self n, by rw [h, hv]⟩

/-- C10: `spawn_vehicles` never raises: it returns at most `num_vehicles`
vehicles, every returned vehicle comes from a loop iteration whose
`try_spawn_actor` actually produced it (non-None), and when the
blueprint/spawn-point setup raises, the result is the empty list. -/
theorem spawn_vehicles_bounded {Blueprint SpawnPoint Vehicle CErr : Type}
    (env : SpawnEnv Blueprint SpawnPoint Vehicle CErr) (n : Nat) :
    (spawn_vehicles env n).length ≤ n ∧
    (∀ v ∈ spawn_vehicles env n,
      ∃ i, i < n ∧ env.trySpawn i = .ok (some v)) ∧
    ∀ e, env.setupBlueprintsAndPoints = .error e →
      spawn_vehicles env n = [] := by
  refine ⟨?_, ?_, fun e he => by simp [spawn_vehicles, he]⟩ <;>
    rcases h : env.setupBlueprintsAndPoints with e | s
  · simp [spawn_vehicles, h]
  · simp only [spawn_vehicles, h]
    exact spawnIter_length env.trySpawn n
  · intro v hv; simp [spawn_vehicles, h] at hv
  · intro v hv
    simp only [spawn_vehicles, h] at hv
    exact spawnIter_mem env.trySpawn n v hv

/-- A spawn environment whose setup succeeds and which spawns a vehicle on
even iterations only. -/
def envSpawnEx : SpawnEnv Unit Unit Nat Unit :=
  ⟨.ok ([], []), fun i => if i % 2 = 0 then .ok (some i) else .ok none⟩

/-- A spawn environment whose blueprint/spawn-point setup raises. -/
def envSpawnErr : SpawnEnv Unit Unit Nat Unit :=
  ⟨.error (), fun _ => .ok none⟩

/-- C10 witness: on a concrete environment a returned vehicle is traced to
its successful spawn iteration, and a failing setup yields the empty list. -/
theorem spawn_vehicles_bounded_witness :
    (∃ i, i < 3 ∧ envSpawnEx.trySpawn i = .ok (some 0)) ∧
      spawn_vehicles envSpawnErr 2 = [] :=
  ⟨(spawn_vehicles_bounded envSpawnEx 3).2.1 0 (by decide),
    (spawn_vehicles_bounded envSpawnErr 2).2.2 () rfl⟩

end CarlaNs3
